import Mathlib

/-!
Verification of the curve-app risk-metrics and scoring engine.

The definitions below are shallow embeddings of the Python source:
* `score_with_limits`, `score_bad_debt`, `score_debt_ceiling` from `src/scoring.py`
* `gk_volatility`, `calculate_volatility_ratio`, the snapshot pipeline from
  `src/query_and_manipulation.py`
* the median-based interdependency scores, the fixed-weight composite and the
  dynamic playground aggregation from `main.py`

Python floats are modelled as rationals (`ℚ`) where the code is pure arithmetic
and as reals (`ℝ`) where logarithms and square roots occur; `NaN` results are
modelled as `Option.none`, and raised exceptions as `Except.error`.
-/

/-- Embedding of `scoring.score_with_limits`.  The optional `mid_limit`
argument (Python default `None`) is passed explicitly as an `Option`;
`none` selects the midpoint `(upper_limit + lower_limit) / 2` exactly as the
Python default branch does. -/
def score_with_limits {K : Type} [LinearOrderedField K]
    (score_this upper_limit lower_limit : K) (direction : Bool)
    (mid_limit? : Option K) : K :=
  let mid_limit : K := mid_limit?.getD ((upper_limit + lower_limit) / 2)
  if direction then
    if upper_limit ≤ score_this then 1
    else if score_this ≤ lower_limit then 0
    else if score_this ≤ mid_limit then
      0.5 * (score_this - lower_limit) / (mid_limit - lower_limit)
    else
      0.5 + 0.5 * (score_this - mid_limit) / (upper_limit - mid_limit)
  else
    if upper_limit ≤ score_this then 0
    else if score_this ≤ lower_limit then 1
    else if score_this ≤ mid_limit then
      1 - 0.5 * (score_this - lower_limit) / (mid_limit - lower_limit)
    else
      0.5 - 0.5 * (score_this - mid_limit) / (upper_limit - mid_limit)

/-- Embedding of `scoring.score_bad_debt`. -/
def score_bad_debt (bad_debt current_debt : ℚ) : ℚ :=
  if bad_debt = 0 then 1
  else if bad_debt < 0.001 * current_debt then
    0.5 + 0.5 * (bad_debt / (0.001 * current_debt))
  else if bad_debt < 0.01 * current_debt then
    0.5 * (bad_debt / (0.01 * current_debt))
  else 0

/-- Embedding of `scoring.score_debt_ceiling`. -/
def score_debt_ceiling (recommended_debt_ceiling current_debt_ceiling
    current_debt : ℚ) : ℚ :=
  if current_debt_ceiling ≤ recommended_debt_ceiling then 1
  else if current_debt ≤ recommended_debt_ceiling then
    0.5 + 0.5 * ((recommended_debt_ceiling - current_debt) / recommended_debt_ceiling)
  else 0

example : score_debt_ceiling 1 1 2 = 1 := by norm_num [score_debt_ceiling]
example : score_bad_debt 0 5 = 1 := by norm_num [score_bad_debt]
example : score_bad_debt (0.005 * 100) 100 = 0.25 := by norm_num [score_bad_debt]
example : score_bad_debt (0.001 * 100) 100 = 0.05 := by norm_num [score_bad_debt]
example : score_with_limits (1 : ℚ) 2 0 true (some 1) = 0.5 := by
  norm_num [score_with_limits]

lemma score_bad_debt_low (D b : ℚ) (hb0 : 0 < b) (hb : b < 0.001 * D) :
    score_bad_debt b D = 0.5 + 0.5 * (b / (0.001 * D)) := by
  unfold score_bad_debt
  rw [if_neg (by linarith), if_pos hb]

lemma score_bad_debt_mid (D b : ℚ) (hb1 : 0.001 * D ≤ b) (hb : b < 0.01 * D) :
    score_bad_debt b D = 0.5 * (b / (0.01 * D)) := by
  have hD : 0 < D := by nlinarith
  unfold score_bad_debt
  rw [if_neg (by nlinarith), if_neg (by linarith), if_pos hb]

lemma score_bad_debt_high (D b : ℚ) (hD : 0 < D) (hb : 0.01 * D ≤ b) :
    score_bad_debt b D = 0 := by
  unfold score_bad_debt
  rw [if_neg (by nlinarith), if_neg (by nlinarith), if_neg (by linarith)]

/-- Claim C2 (counterexample): the claim asserts `score_debt_ceiling R C D = 0`
whenever `D > R` regardless of `C`; at `R = 1`, `C = 1`, `D = 2` the current
debt exceeds the recommended ceiling yet the score is `1`, because the
`current_debt_ceiling ≤ recommended_debt_ceiling` branch fires first. -/
theorem score_debt_ceiling_claim_counterexample :
    (1 : ℚ) < 2 ∧ score_debt_ceiling 1 1 2 = 1 ∧ score_debt_ceiling 1 1 2 ≠ 0 := by
  refine ⟨by norm_num, ?_, ?_⟩ <;> norm_num [score_debt_ceiling]

/-- Claim C2 (amended): `score_debt_ceiling R R D = 1` when `D ≤ R`, and
`score_debt_ceiling R C D = 0` whenever `D > R` and additionally `C > R`
(the zero branch is only reachable when the current ceiling exceeds the
recommended one). -/
theorem score_debt_ceiling_amended_spec (R C D : ℚ) :
    (D ≤ R → score_debt_ceiling R R D = 1)
    ∧ (R < D → R < C → score_debt_ceiling R C D = 0) := by
  constructor
  · intro _
    unfold score_debt_ceiling
    rw [if_pos le_rfl]
  · intro hD hC
    unfold score_debt_ceiling
    rw [if_neg (not_le.mpr hC), if_neg (not_le.mpr hD)]

/-- Witness for `score_debt_ceiling_amended_spec` at concrete inputs. -/
theorem score_debt_ceiling_amended_spec_witness :
    score_debt_ceiling 1 1 1 = 1 ∧ score_debt_ceiling 1 2 3 = 0 :=
  ⟨(score_debt_ceiling_amended_spec 1 1 1).1 le_rfl,
   (score_debt_ceiling_amended_spec 1 2 3).2 (by norm_num) (by norm_num)⟩

/-- Claim C6: for `D > 0`, zero bad debt scores `1`; when the ratio
`b / D` is below `0.1%` the score follows the linear blend
`0.5 + 0.5 * (b / (0.001 * D))` and lies in `[0.5, 1]`; between `0.1%`
and `1%` it follows `0.5 * (b / (0.01 * D))` and lies in `[0, 0.5]`,
with `score_bad_debt (0.005 * D) D` strictly between `0` and `0.5`; at or
above `1%` the score is `0`, in particular at `b = 0.02 * D`. -/
theorem score_bad_debt_policy_spec (D b : ℚ) (hD : 0 < D) :
    score_bad_debt 0 D = 1
    ∧ (0 < b → b / D < 0.001 →
        score_bad_debt b D = 0.5 + 0.5 * (b / (0.001 * D))
        ∧ score_bad_debt b D ∈ Set.Icc (0.5 : ℚ) 1)
    ∧ (0.001 ≤ b / D → b / D < 0.01 →
        score_bad_debt b D = 0.5 * (b / (0.01 * D))
        ∧ score_bad_debt b D ∈ Set.Icc (0 : ℚ) 0.5)
    ∧ 0 < score_bad_debt (0.005 * D) D ∧ score_bad_debt (0.005 * D) D < 0.5
    ∧ (0.01 ≤ b / D → score_bad_debt b D = 0)
    ∧ score_bad_debt (0.02 * D) D = 0 := by
  have hmid : score_bad_debt (0.005 * D) D = 0.25 := by
    rw [score_bad_debt_mid D _ (by nlinarith) (by nlinarith)]
    rw [mul_div_mul_right _ _ (ne_of_gt hD)]
    norm_num
  refine ⟨?_, ?_, ?_, ?_, ?_, ?_, ?_⟩
  · unfold score_bad_debt
    rw [if_pos rfl]
  · intro hb0 hbr
    rw [div_lt_iff₀ hD] at hbr
    have heq := score_bad_debt_low D b hb0 (by linarith)
    have h1 : 0 < b / (0.001 * D) := div_pos hb0 (by positivity)
    have h2 : b / (0.001 * D) < 1 := (div_lt_one (by positivity)).mpr (by linarith)
    exact ⟨heq, by rw [heq]; constructor <;> linarith⟩
  · intro hbl hbr
    rw [le_div_iff₀ hD] at hbl
    rw [div_lt_iff₀ hD] at hbr
    have heq := score_bad_debt_mid D b (by linarith) (by linarith)
    have h1 : 0 < b / (0.01 * D) := div_pos (by nlinarith) (by positivity)
    have h2 : b / (0.01 * D) < 1 := (div_lt_one (by positivity)).mpr (by linarith)
    exact ⟨heq, by rw [heq]; constructor <;> linarith⟩
  · rw [hmid]; norm_num
  · rw [hmid]; norm_num
  · intro hbl
    rw [le_div_iff₀ hD] at hbl
    exact score_bad_debt_high D b hD (by linarith)
  · exact score_bad_debt_high D _ hD (by nlinarith)

/-- Witness for `score_bad_debt_policy_spec` at `D = 1000`, `b = 0.5`. -/
theorem score_bad_debt_policy_spec_witness :
    score_bad_debt 0 1000 = 1
    ∧ score_bad_debt 0.5 1000 ∈ Set.Icc (0.5 : ℚ) 1
    ∧ score_bad_debt (0.02 * 1000) 1000 = 0 :=
  ⟨(score_bad_debt_policy_spec 1000 0.5 (by norm_num)).1,
   ((score_bad_debt_policy_spec 1000 0.5 (by norm_num)).2.1 (by norm_num)
     (by norm_num)).2,
   (score_bad_debt_policy_spec 1000 0.5 (by norm_num)).2.2.2.2.2.2⟩

/-- Claim C10: for fixed `D > 0` the bad-debt score is strictly increasing on
`(0, 0.001 * D)`, stays below `1` there but gets arbitrarily close to `1`
near the right end, drops to exactly `0.05` at `b = 0.001 * D`, is strictly
increasing again on `[0.001 * D, 0.01 * D)` staying below `0.5` but
approaching `0.5`; hence the function is discontinuous at `b = 0.001 * D`
and is not monotone non-increasing in bad debt. -/
theorem score_bad_debt_shape_spec (D : ℚ) (hD : 0 < D) :
    StrictMonoOn (fun b => score_bad_debt b D) (Set.Ioo 0 (0.001 * D))
    ∧ (∀ b ∈ Set.Ioo (0 : ℚ) (0.001 * D), score_bad_debt b D < 1)
    ∧ (∀ ε : ℚ, 0 < ε →
        ∃ b ∈ Set.Ioo (0 : ℚ) (0.001 * D), 1 - ε < score_bad_debt b D)
    ∧ score_bad_debt (0.001 * D) D = 0.05
    ∧ StrictMonoOn (fun b => score_bad_debt b D) (Set.Ico (0.001 * D) (0.01 * D))
    ∧ (∀ b ∈ Set.Ico (0.001 * D) (0.01 * D), score_bad_debt b D < 0.5)
    ∧ (∀ ε : ℚ, 0 < ε →
        ∃ b ∈ Set.Ico (0.001 * D) (0.01 * D), 0.5 - ε < score_bad_debt b D)
    ∧ ¬ ContinuousAt (fun b => score_bad_debt b D) (0.001 * D)
    ∧ ¬ Antitone (fun b => score_bad_debt b D) := by
  have hx0 : (0 : ℚ) < 0.001 * D := by positivity
  have hx1 : (0 : ℚ) < 0.01 * D := by positivity
  have hval : score_bad_debt (0.001 * D) D = 0.05 := by
    rw [score_bad_debt_mid D _ le_rfl (by nlinarith)]
    rw [mul_div_mul_right _ _ (ne_of_gt hD)]
    norm_num
  have hlow_gt : ∀ b : ℚ, 0 < b → b < 0.001 * D → 0.5 < score_bad_debt b D := by
    intro b hb0 hb
    rw [score_bad_debt_low D b hb0 hb]
    have : 0 < b / (0.001 * D) := div_pos hb0 hx0
    linarith
  refine ⟨?_, ?_, ?_, hval, ?_, ?_, ?_, ?_, ?_⟩
  · intro a ha b hb hab
    rw [Set.mem_Ioo] at ha hb
    simp only
    rw [score_bad_debt_low D a ha.1 ha.2, score_bad_debt_low D b hb.1 hb.2]
    have := (div_lt_div_iff_of_pos_right hx0).mpr hab
    linarith
  · intro b hb
    rw [Set.mem_Ioo] at hb
    rw [score_bad_debt_low D b hb.1 hb.2]
    have : b / (0.001 * D) < 1 := (div_lt_one hx0).mpr hb.2
    linarith
  · intro ε hε
    set m : ℚ := min ε 1 with hm
    have hm0 : 0 < m := lt_min hε one_pos
    have hm1 : m ≤ 1 := min_le_right _ _
    have hmε : m ≤ ε := min_le_left _ _
    refine ⟨0.001 * D * (1 - m / 2), ⟨by nlinarith, by nlinarith⟩, ?_⟩
    rw [score_bad_debt_low D _ (by nlinarith) (by nlinarith)]
    rw [mul_comm (0.001 * D) (1 - m / 2), mul_div_assoc, div_self (ne_of_gt hx0)]
    nlinarith
  · intro a ha b hb hab
    rw [Set.mem_Ico] at ha hb
    simp only
    rw [score_bad_debt_mid D a ha.1 ha.2, score_bad_debt_mid D b hb.1 hb.2]
    have := (div_lt_div_iff_of_pos_right hx1).mpr hab
    linarith
  · intro b hb
    rw [Set.mem_Ico] at hb
    rw [score_bad_debt_mid D b hb.1 hb.2]
    have : b / (0.01 * D) < 1 := (div_lt_one hx1).mpr hb.2
    linarith
  · intro ε hε
    set m : ℚ := min ε 1 with hm
    have hm0 : 0 < m := lt_min hε one_pos
    have hm1 : m ≤ 1 := min_le_right _ _
    have hmε : m ≤ ε := min_le_left _ _
    refine ⟨0.01 * D * (1 - m / 2), ⟨by nlinarith, by nlinarith⟩, ?_⟩
    rw [score_bad_debt_mid D _ (by nlinarith) (by nlinarith)]
    rw [mul_comm (0.01 * D) (1 - m / 2), mul_div_assoc, div_self (ne_of_gt hx1)]
    nlinarith
  · intro hcont
    have hnear : {y : ℚ | score_bad_debt y D < 0.5} ∈
        nhds (0.001 * D) := by
      have : Set.Iio (0.5 : ℚ) ∈ nhds (score_bad_debt (0.001 * D) D) := by
        rw [hval]
        exact Iio_mem_nhds (by norm_num)
      exact hcont this
    obtain ⟨l, u, hmem, hsub⟩ := mem_nhds_iff_exists_Ioo_subset.mp hnear
    rw [Set.mem_Ioo] at hmem
    set c : ℚ := (max l 0 + 0.001 * D) / 2 with hc
    have hl0 : max l 0 < 0.001 * D := max_lt hmem.1 hx0
    have hcl : l < c := by
      have := le_max_left l 0
      rw [hc]; nlinarith
    have hc0 : 0 < c := by
      have := le_max_right l 0
      rw [hc]; nlinarith
    have hcx : c < 0.001 * D := by rw [hc]; nlinarith
    have hmemc : c ∈ Set.Ioo l u := ⟨hcl, lt_trans hcx hmem.2⟩
    have := hsub hmemc
    rw [Set.mem_setOf_eq] at this
    exact absurd this (not_lt.mpr (le_of_lt (hlow_gt c hc0 hcx)))
  · intro hanti
    have h1 : score_bad_debt (0.0002 * D) D = 0.6 := by
      rw [score_bad_debt_low D _ (by nlinarith) (by nlinarith)]
      rw [show (0.0002 : ℚ) * D = 0.2 * (0.001 * D) by ring, mul_div_assoc,
        div_self (ne_of_gt hx0)]
      norm_num
    have h2 : score_bad_debt (0.0008 * D) D = 0.9 := by
      rw [score_bad_debt_low D _ (by nlinarith) (by nlinarith)]
      rw [show (0.0008 : ℚ) * D = 0.8 * (0.001 * D) by ring, mul_div_assoc,
        div_self (ne_of_gt hx0)]
      norm_num
    have := hanti (show (0.0002 : ℚ) * D ≤ 0.0008 * D by nlinarith)
    simp only at this
    rw [h1, h2] at this
    norm_num at this

/-- Witness for `score_bad_debt_shape_spec` at `D = 1000`. -/
theorem score_bad_debt_shape_spec_witness :
    score_bad_debt (0.001 * 1000) 1000 = 0.05 ∧
    ¬ Antitone (fun b => score_bad_debt b 1000) :=
  ⟨(score_bad_debt_shape_spec 1000 (by norm_num)).2.2.2.1,
   (score_bad_debt_shape_spec 1000 (by norm_num)).2.2.2.2.2.2.2.2⟩

/-- Embedding of the Version 2.0.0 composite from `main.py`: the fixed-weight
sum of the nine category scores and the two interdependency scores, divided
by 100. -/
def ultimate_score (interdependency_volatility interdependency_price_momentum
    bad_debt_score debt_ceiling_score aggregate_cr_score
    aggregate_collateral_under_sl_score aggregate_vol_ratio_score
    aggregate_prob_drop_score aggregate_borrower_distribution_score
    sl_responsiveness_score sl_profitability_score : ℚ) : ℚ :=
  (interdependency_volatility * 6 +
   interdependency_price_momentum * 6 +
   bad_debt_score * 13 +
   debt_ceiling_score * 13 +
   aggregate_cr_score * 10 +
   aggregate_collateral_under_sl_score * 10 +
   aggregate_vol_ratio_score * 10 +
   aggregate_prob_drop_score * 8 +
   aggregate_borrower_distribution_score * 8 +
   sl_responsiveness_score * 8 +
   sl_profitability_score * 8) / 100

/-- The versioned weight table of `main.py` (Version 2.0.0), in the order
bad debt, debt ceiling, collateral ratio, collateral under SL, volatility
and beta, price drop, borrower distribution, SL responsiveness,
SL profitability, interdependency (volatility), interdependency
(price momentum). -/
def score_weight_table : List ℚ := [13, 13, 10, 10, 10, 8, 8, 8, 8, 6, 6]

/-- Claim C7: the weight table sums to 100; the composite equals the
weight table dotted with the component scores, divided by 100 (so it is
re-derivable from the category scores and the weight table alone); and it
lies in `[0, 1]` whenever every component score does. -/
theorem ultimate_score_spec (iv ipm bd dc cr csl vr pd bdist slr slp : ℚ) :
    score_weight_table.sum = 100
    ∧ ultimate_score iv ipm bd dc cr csl vr pd bdist slr slp =
        (List.zipWith (fun w s => w * s) score_weight_table
          [bd, dc, cr, csl, vr, pd, bdist, slr, slp, iv, ipm]).sum / 100
    ∧ ((∀ s ∈ [bd, dc, cr, csl, vr, pd, bdist, slr, slp, iv, ipm],
          s ∈ Set.Icc (0 : ℚ) 1) →
        ultimate_score iv ipm bd dc cr csl vr pd bdist slr slp ∈
          Set.Icc (0 : ℚ) 1) := by
  refine ⟨by norm_num [score_weight_table], ?_, ?_⟩
  · simp only [ultimate_score, score_weight_table, List.zipWith, List.sum_cons,
      List.sum_nil]
    ring
  · intro h
    have hbd := h bd (by simp)
    have hdc := h dc (by simp)
    have hcr := h cr (by simp)
    have hcsl := h csl (by simp)
    have hvr := h vr (by simp)
    have hpd := h pd (by simp)
    have hbdist := h bdist (by simp)
    have hslr := h slr (by simp)
    have hslp := h slp (by simp)
    have hiv := h iv (by simp)
    have hipm := h ipm (by simp)
    rw [Set.mem_Icc] at *
    unfold ultimate_score
    constructor <;> [linarith; linarith]

/-- Witness for `ultimate_score_spec` with every component equal to `0.5`. -/
theorem ultimate_score_spec_witness :
    ultimate_score 0.5 0.5 0.5 0.5 0.5 0.5 0.5 0.5 0.5 0.5 0.5 ∈
      Set.Icc (0 : ℚ) 1 :=
  (ultimate_score_spec 0.5 0.5 0.5 0.5 0.5 0.5 0.5 0.5 0.5 0.5 0.5).2.2
    (by intro s hs; fin_cases hs <;> norm_num)

/-- Embedding of `np.median`: sort ascending; an odd-length list yields the
middle element, an even-length list the average of the two middle elements. -/
def npMedian (xs : List ℚ) : ℚ :=
  let s := List.insertionSort (· ≤ ·) xs
  if s.length % 2 = 1 then s.getD (s.length / 2) 0
  else (s.getD (s.length / 2 - 1) 0 + s.getD (s.length / 2) 0) / 2

/-- Embedding of `main.py` line 485: the price-momentum interdependency score
is `np.median` of the price-drop, debt-ceiling, collateral-ratio and
borrower-distribution category scores. -/
def interdependency_score_price_momentum (aggregate_prob_drop_score
    debt_ceiling_score aggregate_cr_score
    aggregate_borrower_distribution_score : ℚ) : ℚ :=
  npMedian [aggregate_prob_drop_score, debt_ceiling_score, aggregate_cr_score,
    aggregate_borrower_distribution_score]

/-- Embedding of `main.py` line 506: the volatility interdependency score is
`np.median` of the volatility-and-beta, SL-responsiveness, SL-profitability,
collateral-under-SL and borrower-distribution category scores. -/
def interdependency_score_volatility (aggregate_vol_ratio_score
    sl_responsiveness_score sl_profitability_score
    aggregate_collateral_under_sl_score
    aggregate_borrower_distribution_score : ℚ) : ℚ :=
  npMedian [aggregate_vol_ratio_score, sl_responsiveness_score,
    sl_profitability_score, aggregate_collateral_under_sl_score,
    aggregate_borrower_distribution_score]

/-- Statistical-median predicate: at least half of the list lies at or below
`x` and at least half lies at or above `x`. -/
def isMedian (x : ℚ) (xs : List ℚ) : Prop :=
  xs.length ≤ 2 * xs.countP (fun y => decide (y ≤ x))
  ∧ xs.length ≤ 2 * xs.countP (fun y => decide (x ≤ y))

lemma exists_list_four {α : Type} : ∀ l : List α, l.length = 4 →
    ∃ w x y z, l = [w, x, y, z]
  | [w, x, y, z], _ => ⟨w, x, y, z, rfl⟩
  | [], h => by simp at h
  | [_], h => by simp at h
  | [_, _], h => by simp at h
  | [_, _, _], h => by simp at h
  | _ :: _ :: _ :: _ :: _ :: _, h => by simp at h

lemma exists_list_five {α : Type} : ∀ l : List α, l.length = 5 →
    ∃ v w x y z, l = [v, w, x, y, z]
  | [v, w, x, y, z], _ => ⟨v, w, x, y, z, rfl⟩
  | [], h => by simp at h
  | [_], h => by simp at h
  | [_, _], h => by simp at h
  | [_, _, _], h => by simp at h
  | [_, _, _, _], h => by simp at h
  | _ :: _ :: _ :: _ :: _ :: _ :: _, h => by simp at h

lemma median4_isMedian (a b c d : ℚ) :
    isMedian (npMedian [a, b, c, d]) [a, b, c, d] := by
  have hp := List.perm_insertionSort (α := ℚ) (· ≤ ·) [a, b, c, d]
  have hs := List.sorted_insertionSort (α := ℚ) (· ≤ ·) [a, b, c, d]
  have hlen : (List.insertionSort (· ≤ ·) [a, b, c, d]).length = 4 := by
    rw [hp.length_eq]; rfl
  obtain ⟨w, x, y, z, heq⟩ := exists_list_four _ hlen
  rw [heq] at hp hs
  simp only [List.sorted_cons, List.mem_cons, List.not_mem_nil, or_false,
    List.sorted_nil, and_true] at hs
  have hwx : w ≤ x := hs.1 x (Or.inl rfl)
  have hxy : x ≤ y := hs.2.1 y (Or.inl rfl)
  have hyz : y ≤ z := hs.2.2.1 z rfl
  have hmed : npMedian [a, b, c, d] = (x + y) / 2 := by
    simp only [npMedian, heq]
    norm_num [List.getD]
  rw [hmed]
  have h1 : w ≤ (x + y) / 2 := by linarith
  have h2 : x ≤ (x + y) / 2 := by linarith
  have h3 : (x + y) / 2 ≤ y := by linarith
  have h4 : (x + y) / 2 ≤ z := by linarith
  constructor
  · rw [show ([a, b, c, d] : List ℚ).length = 4 from rfl,
      ← hp.countP_eq (fun u => decide (u ≤ (x + y) / 2))]
    simp only [List.countP_cons, List.countP_nil, decide_eq_true_eq]
    rw [if_pos h1, if_pos h2]
    split_ifs <;> omega
  · rw [show ([a, b, c, d] : List ℚ).length = 4 from rfl,
      ← hp.countP_eq (fun u => decide ((x + y) / 2 ≤ u))]
    simp only [List.countP_cons, List.countP_nil, decide_eq_true_eq]
    rw [if_pos h3, if_pos h4]
    split_ifs <;> omega

lemma median5_isMedian (a b c d e : ℚ) :
    isMedian (npMedian [a, b, c, d, e]) [a, b, c, d, e] := by
  have hp := List.perm_insertionSort (α := ℚ) (· ≤ ·) [a, b, c, d, e]
  have hs := List.sorted_insertionSort (α := ℚ) (· ≤ ·) [a, b, c, d, e]
  have hlen : (List.insertionSort (· ≤ ·) [a, b, c, d, e]).length = 5 := by
    rw [hp.length_eq]; rfl
  obtain ⟨v, w, x, y, z, heq⟩ := exists_list_five _ hlen
  rw [heq] at hp hs
  simp only [List.sorted_cons, List.mem_cons, List.not_mem_nil, or_false,
    List.sorted_nil, and_true] at hs
  have hvw : v ≤ w := hs.1 w (Or.inl rfl)
  have hwx : w ≤ x := hs.2.1 x (Or.inl rfl)
  have hxy : x ≤ y := hs.2.2.1 y (Or.inl rfl)
  have hyz : y ≤ z := hs.2.2.2.1 z rfl
  have hmed : npMedian [a, b, c, d, e] = x := by
    simp only [npMedian, heq]
    norm_num [List.getD]
  rw [hmed]
  constructor
  · rw [show ([a, b, c, d, e] : List ℚ).length = 5 from rfl,
      ← hp.countP_eq (fun u => decide (u ≤ x))]
    simp only [List.countP_cons, List.countP_nil, decide_eq_true_eq]
    rw [if_pos (le_trans hvw hwx), if_pos hwx, if_pos le_rfl]
    split_ifs <;> omega
  · rw [show ([a, b, c, d, e] : List ℚ).length = 5 from rfl,
      ← hp.countP_eq (fun u => decide (x ≤ u))]
    simp only [List.countP_cons, List.countP_nil, decide_eq_true_eq]
    rw [if_pos le_rfl, if_pos hxy, if_pos (le_trans hxy hyz)]
    split_ifs <;> omega

/-- Claim C8: both interdependency scores equal `np.median` of their fixed
named subsets of category scores, and that value is a statistical median of
the subset (at least half the scores lie on each side); on concrete inputs
the median differs from both the minimum and the mean, so neither reading
would be equivalent. -/
theorem interdependency_median_spec (pd dc cr bdist vr slr slp csl : ℚ) :
    interdependency_score_price_momentum pd dc cr bdist =
      npMedian [pd, dc, cr, bdist]
    ∧ isMedian (interdependency_score_price_momentum pd dc cr bdist)
        [pd, dc, cr, bdist]
    ∧ interdependency_score_volatility vr slr slp csl bdist =
      npMedian [vr, slr, slp, csl, bdist]
    ∧ isMedian (interdependency_score_volatility vr slr slp csl bdist)
        [vr, slr, slp, csl, bdist]
    ∧ interdependency_score_price_momentum 0 0.2 0.8 0.8 = 0.5
    ∧ min (min (0 : ℚ) 0.2) (min 0.8 0.8) = 0
    ∧ ((0 : ℚ) + 0.2 + 0.8 + 0.8) / 4 = 0.45
    ∧ interdependency_score_volatility 0 0 1 1 1 = 1
    ∧ min (min (0 : ℚ) 0) (min (min 1 1) 1) = 0
    ∧ ((0 : ℚ) + 0 + 1 + 1 + 1) / 5 = 0.6 := by
  refine ⟨rfl, median4_isMedian pd dc cr bdist, rfl,
    median5_isMedian vr slr slp csl bdist, ?_, by norm_num, by norm_num, ?_,
    by norm_num, by norm_num⟩
  · norm_num [interdependency_score_price_momentum, npMedian,
      List.insertionSort, List.orderedInsert]
  · norm_num [interdependency_score_volatility, npMedian,
      List.insertionSort, List.orderedInsert]

/-- Python division: raises `ZeroDivisionError` on a zero denominator,
modelled as `Except.error`. -/
def pydiv (a b : ℚ) : Except String ℚ :=
  if b = 0 then Except.error "ZeroDivisionError" else Except.ok (a / b)

/-- Embedding of the playground weight normalization in `main.py`: if the
total weight is not `100`, each weight is replaced by
`weight / total * 100` (each division going through `pydiv`, which raises
on a zero total); if the total is already `100` the weights are kept. -/
def normalized_weights (ws : List ℚ) : Except String (List ℚ) :=
  if ws.sum = 100 then Except.ok ws
  else ws.mapM (fun v => (pydiv v ws.sum).map (· * 100))

/-- Embedding of the playground composite in `main.py`: the sum over all
metrics of `score * normalized_weight / 100`, computed over a list of
`(score, weight)` pairs. -/
def dynamic_final_score (items : List (ℚ × ℚ)) : Except String ℚ :=
  (normalized_weights (items.map Prod.snd)).bind fun nw =>
    ((((items.map Prod.fst).zip nw).mapM fun p => pydiv (p.1 * p.2) 100).map
      fun terms => terms.sum)

lemma mapM_ok_of_forall {α β : Type} (f : α → Except String β) :
    ∀ l : List α, (∀ a ∈ l, ∃ b, f a = Except.ok b) →
      ∃ bs, l.mapM f = Except.ok bs := by
  intro l
  induction l with
  | nil => exact fun _ => ⟨[], rfl⟩
  | cons a t ih =>
    intro h
    obtain ⟨b, hb⟩ := h a (by simp)
    obtain ⟨bs, hbs⟩ := ih fun x hx => h x (by simp [hx])
    refine ⟨b :: bs, ?_⟩
    rw [List.mapM_cons, hb, hbs]
    rfl

/-- Claim C9: in the dynamic playground mode, a nonempty weight mapping whose
weights sum to zero makes the computation fail with an explicit
`ZeroDivisionError` (the raised Python exception, modelled as
`Except.error`), never a silently-produced number; and any weight mapping
with a nonzero sum yields a computed score, with no division by zero
anywhere (every division is routed through `pydiv`, which fails on zero
denominators). -/
theorem dynamic_mode_weight_spec (items : List (ℚ × ℚ)) (hne : items ≠ []) :
    ((items.map Prod.snd).sum = 0 →
      dynamic_final_score items = Except.error "ZeroDivisionError")
    ∧ ((items.map Prod.snd).sum ≠ 0 →
      ∃ q, dynamic_final_score items = Except.ok q) := by
  constructor
  · intro h0
    obtain ⟨p, rest, rfl⟩ : ∃ p rest, items = p :: rest := by
      cases items with
      | nil => exact absurd rfl hne
      | cons p rest => exact ⟨p, rest, rfl⟩
    unfold dynamic_final_score normalized_weights
    rw [h0, if_neg (by norm_num)]
    have hdiv : Except.map (fun x => x * 100) (pydiv p.2 (0 : ℚ)) =
        Except.error "ZeroDivisionError" := by
      unfold pydiv
      rw [if_pos rfl]
      rfl
    rw [List.map_cons, List.mapM_cons, hdiv]
    rfl
  · intro hs
    have hnw : ∃ nw, normalized_weights (items.map Prod.snd) = Except.ok nw := by
      unfold normalized_weights
      split
      · exact ⟨items.map Prod.snd, rfl⟩
      · exact mapM_ok_of_forall _ _ fun a _ =>
          ⟨a / (items.map Prod.snd).sum * 100, by
            unfold pydiv; rw [if_neg hs]; rfl⟩
    obtain ⟨nw, hnw⟩ := hnw
    obtain ⟨terms, hterms⟩ :=
      mapM_ok_of_forall (fun p : ℚ × ℚ => pydiv (p.1 * p.2) 100)
        ((items.map Prod.fst).zip nw)
        (fun p _ => ⟨p.1 * p.2 / 100, by
          unfold pydiv
          simp only
          rw [if_neg (by norm_num : ¬(100 : ℚ) = 0)]⟩)
    refine ⟨terms.sum, ?_⟩
    unfold dynamic_final_score
    rw [hnw]
    show (((items.map Prod.fst).zip nw).mapM fun p => pydiv (p.1 * p.2) 100).map
      (fun terms => terms.sum) = _
    rw [hterms]
    rfl

/-- Witness for `dynamic_mode_weight_spec`: a single zero weight raises, and
the documented `{A: (0.8, 50), B: (0.2, 50)}` configuration succeeds. -/
theorem dynamic_mode_weight_spec_witness :
    dynamic_final_score [((0.5 : ℚ), (0 : ℚ))] = Except.error "ZeroDivisionError"
    ∧ ∃ q, dynamic_final_score [((0.8 : ℚ), (50 : ℚ)), (0.2, 50)] =
        Except.ok q :=
  ⟨(dynamic_mode_weight_spec [((0.5 : ℚ), (0 : ℚ))] (by simp)).1 (by norm_num),
   (dynamic_mode_weight_spec [((0.8 : ℚ), (50 : ℚ)), (0.2, 50)] (by simp)).2
     (by norm_num)⟩

lemma swl_true_eval (v upper lower mid : ℚ) :
    score_with_limits v upper lower true (some mid) =
      (if upper ≤ v then 1 else if v ≤ lower then 0
       else if v ≤ mid then 0.5 * (v - lower) / (mid - lower)
       else 0.5 + 0.5 * (v - mid) / (upper - mid)) := rfl

lemma swl_false_eq (v upper lower mid : ℚ) :
    score_with_limits v upper lower false (some mid) =
      1 - score_with_limits v upper lower true (some mid) := by
  unfold score_with_limits
  simp only [Option.getD_some, Bool.false_eq_true, if_false, if_true]
  split_ifs <;> ring

lemma swl_segA_nonneg (lower mid v : ℚ) (hlm : lower < mid) (hv : lower ≤ v) :
    0 ≤ 0.5 * (v - lower) / (mid - lower) :=
  div_nonneg (by linarith) (by linarith)

lemma swl_segA_le_half (lower mid v : ℚ) (hlm : lower < mid) (hv : v ≤ mid) :
    0.5 * (v - lower) / (mid - lower) ≤ 0.5 := by
  rw [div_le_iff₀ (by linarith)]
  linarith

lemma swl_segB_ge_half (mid upper v : ℚ) (hmu : mid < upper) (hv : mid ≤ v) :
    0.5 ≤ 0.5 + 0.5 * (v - mid) / (upper - mid) := by
  have := div_nonneg (by linarith : (0 : ℚ) ≤ 0.5 * (v - mid))
    (by linarith : (0 : ℚ) ≤ upper - mid)
  linarith

lemma swl_segB_le_one (mid upper v : ℚ) (hmu : mid < upper) (hv : v ≤ upper) :
    0.5 + 0.5 * (v - mid) / (upper - mid) ≤ 1 := by
  have : 0.5 * (v - mid) / (upper - mid) ≤ 0.5 := by
    rw [div_le_iff₀ (by linarith)]
    linarith
  linarith

lemma swl_seg_mono (c d a b : ℚ) (hd : 0 < d) (hab : a ≤ b) :
    0.5 * (a - c) / d ≤ 0.5 * (b - c) / d :=
  (div_le_div_iff_of_pos_right hd).mpr (by linarith)

lemma swl_true_range (upper lower mid v : ℚ) (hlm : lower < mid)
    (hmu : mid < upper) :
    score_with_limits v upper lower true (some mid) ∈ Set.Icc (0 : ℚ) 1 := by
  rw [Set.mem_Icc, swl_true_eval]
  split_ifs with h1 h2 h3
  · constructor <;> linarith
  · constructor <;> linarith
  · constructor
    · exact swl_segA_nonneg lower mid v hlm (by linarith)
    · linarith [swl_segA_le_half lower mid v hlm h3]
  · constructor
    · linarith [swl_segB_ge_half mid upper v hmu (by linarith)]
    · exact swl_segB_le_one mid upper v hmu (by linarith)

lemma swl_true_monotone (upper lower mid : ℚ) (hlm : lower < mid)
    (hmu : mid < upper) :
    Monotone (fun v : ℚ => score_with_limits v upper lower true (some mid)) := by
  intro a b hab
  simp only [swl_true_eval]
  split_ifs <;>
    first
      | linarith
      | linarith [swl_segA_nonneg lower mid b hlm (by linarith)]
      | linarith [swl_segB_ge_half mid upper b hmu (by linarith)]
      | linarith [swl_seg_mono lower (mid - lower) a b (by linarith) hab]
      | linarith [swl_segA_le_half lower mid a hlm (by linarith),
          swl_segB_ge_half mid upper b hmu (by linarith)]
      | linarith [swl_segA_le_half lower mid a hlm (by linarith)]
      | linarith [swl_seg_mono mid (upper - mid) a b (by linarith) hab]
      | linarith [swl_segB_le_one mid upper a hmu (by linarith)]

lemma swl_true_continuous (upper lower mid : ℚ) (hlm : lower < mid)
    (hmu : mid < upper) :
    Continuous (fun v : ℚ => score_with_limits v upper lower true (some mid)) := by
  have heq : (fun v : ℚ => score_with_limits v upper lower true (some mid)) =
      fun v : ℚ => if upper ≤ v then 1 else if v ≤ lower then 0
        else if v ≤ mid then 0.5 * (v - lower) / (mid - lower)
        else 0.5 + 0.5 * (v - mid) / (upper - mid) :=
    funext fun v => swl_true_eval v upper lower mid
  rw [heq]
  have hsegA : Continuous fun v : ℚ => 0.5 * (v - lower) / (mid - lower) :=
    (continuous_const.mul (continuous_id.sub continuous_const)).div_const _
  have hsegB : Continuous fun v : ℚ => 0.5 + 0.5 * (v - mid) / (upper - mid) :=
    continuous_const.add
      ((continuous_const.mul (continuous_id.sub continuous_const)).div_const _)
  have hinner2 : Continuous fun v : ℚ =>
      if v ≤ mid then 0.5 * (v - lower) / (mid - lower)
      else 0.5 + 0.5 * (v - mid) / (upper - mid) := by
    apply Continuous.if_le hsegA hsegB continuous_id continuous_const
    intro x hx
    have hx' : x = mid := hx
    rw [hx', sub_self, mul_zero, zero_div, add_zero, mul_div_assoc,
      div_self (by linarith : mid - lower ≠ 0)]
    norm_num
  have hinner1 : Continuous fun v : ℚ =>
      if v ≤ lower then 0
      else if v ≤ mid then 0.5 * (v - lower) / (mid - lower)
      else 0.5 + 0.5 * (v - mid) / (upper - mid) := by
    apply Continuous.if_le continuous_const hinner2 continuous_id continuous_const
    intro x hx
    have hx' : x = lower := hx
    rw [hx', if_pos hlm.le, sub_self, mul_zero, zero_div]
  apply Continuous.if_le continuous_const hinner1 continuous_const continuous_id
  intro x hx
  have hx' : upper = x := hx
  rw [← hx', if_neg (by linarith : ¬upper ≤ lower),
    if_neg (by linarith : ¬upper ≤ mid), mul_div_assoc,
    div_self (by linarith : upper - mid ≠ 0)]
  norm_num

/-- Claim C1: for `lower < mid < upper` the normalizer
`score_with_limits value upper lower direction (some mid)` always lies in
`[0, 1]`, is continuous and monotone in the value (nondecreasing when
`direction` is true, nonincreasing when false), takes the exact values
`0` (resp. `1`), `0.5`, `1` (resp. `0`) at `value = lower`, `mid`, `upper`,
and is clamped to the extreme values outside `[lower, upper]`. -/
theorem score_with_limits_spec (upper lower mid : ℚ) (direction : Bool)
    (hlm : lower < mid) (hmu : mid < upper) :
    (∀ v : ℚ,
      score_with_limits v upper lower direction (some mid) ∈ Set.Icc (0 : ℚ) 1)
    ∧ Continuous
        (fun v : ℚ => score_with_limits v upper lower direction (some mid))
    ∧ (direction = true →
        Monotone
          (fun v : ℚ => score_with_limits v upper lower direction (some mid)))
    ∧ (direction = false →
        Antitone
          (fun v : ℚ => score_with_limits v upper lower direction (some mid)))
    ∧ score_with_limits lower upper lower direction (some mid) =
        (if direction then 0 else 1)
    ∧ score_with_limits mid upper lower direction (some mid) = 0.5
    ∧ score_with_limits upper upper lower direction (some mid) =
        (if direction then 1 else 0)
    ∧ (∀ v : ℚ, v ≤ lower →
        score_with_limits v upper lower direction (some mid) =
          (if direction then 0 else 1))
    ∧ (∀ v : ℚ, upper ≤ v →
        score_with_limits v upper lower direction (some mid) =
          (if direction then 1 else 0)) := by
  have hat_low : ∀ v : ℚ, v ≤ lower →
      score_with_limits v upper lower true (some mid) = 0 := by
    intro v hv
    rw [swl_true_eval, if_neg (by linarith), if_pos hv]
  have hat_high : ∀ v : ℚ, upper ≤ v →
      score_with_limits v upper lower true (some mid) = 1 := by
    intro v hv
    rw [swl_true_eval, if_pos hv]
  have hat_mid : score_with_limits mid upper lower true (some mid) = 0.5 := by
    rw [swl_true_eval, if_neg (by linarith), if_neg (by linarith),
      if_pos le_rfl, mul_div_assoc,
      div_self (by linarith : mid - lower ≠ 0), mul_one]
  cases direction with
  | true =>
    refine ⟨fun v => swl_true_range upper lower mid v hlm hmu,
      swl_true_continuous upper lower mid hlm hmu,
      fun _ => swl_true_monotone upper lower mid hlm hmu,
      fun h => by simp at h,
      by simpa using hat_low lower le_rfl,
      hat_mid,
      by simpa using hat_high upper le_rfl,
      fun v hv => by simpa using hat_low v hv,
      fun v hv => by simpa using hat_high v hv⟩
  | false =>
    have heq : (fun v : ℚ => score_with_limits v upper lower false (some mid)) =
        fun v : ℚ => 1 - score_with_limits v upper lower true (some mid) :=
      funext fun v => swl_false_eq v upper lower mid
    refine ⟨?_, ?_, fun h => by simp at h, ?_, ?_, ?_, ?_, ?_, ?_⟩
    · intro v
      rw [swl_false_eq]
      have h := swl_true_range upper lower mid v hlm hmu
      rw [Set.mem_Icc] at h ⊢
      constructor <;> linarith [h.1, h.2]
    · rw [heq]
      exact continuous_const.sub (swl_true_continuous upper lower mid hlm hmu)
    · intro _ a b hab
      simp only [swl_false_eq]
      have h := swl_true_monotone upper lower mid hlm hmu hab
      simp only at h
      linarith
    · rw [swl_false_eq, hat_low lower le_rfl]
      norm_num
    · rw [swl_false_eq, hat_mid]
      norm_num
    · rw [swl_false_eq, hat_high upper le_rfl]
      norm_num
    · intro v hv
      rw [swl_false_eq, hat_low v hv]
      norm_num
    · intro v hv
      rw [swl_false_eq, hat_high v hv]
      norm_num

/-- Witness for `score_with_limits_spec` with bounds `0 < 1 < 2`. -/
theorem score_with_limits_spec_witness :
    score_with_limits (1 : ℚ) 2 0 true (some 1) = 0.5
    ∧ score_with_limits (5 : ℚ) 2 0 true (some 1) = 1 :=
  ⟨(score_with_limits_spec 2 0 1 true (by norm_num) (by norm_num)).2.2.2.2.2.1,
   (score_with_limits_spec 2 0 1 true (by norm_num)
      (by norm_num)).2.2.2.2.2.2.2.2 5 (by norm_num)⟩

/-- One daily OHLC price bar (`open`, `high`, `low`, `close`). -/
structure PriceBar where
  «open» : ℝ
  high : ℝ
  low : ℝ
  close : ℝ

/-- The pandas `.mean()` of a column, as used inside `gk_volatility`. -/
noncomputable def pymean (xs : List ℝ) : ℝ := xs.sum / xs.length

/-- Per-bar Garman-Klass term
`0.5 * log(high/low)^2 - (2*log 2 - 1) * log(close/open)^2`. -/
noncomputable def gk_term (b : PriceBar) : ℝ :=
  0.5 * (Real.log (b.high / b.low)) ^ 2
    - (2 * Real.log 2 - 1) * (Real.log (b.close / b.«open»)) ^ 2

/-- The whole-series Garman-Klass variance of
`query_and_manipulation.gk_volatility`. -/
noncomputable def gk_variance (bars : List PriceBar) : ℝ :=
  pymean (bars.map gk_term)

/-- Embedding of `query_and_manipulation.gk_volatility`: the `np.nan`
returned when the variance is `≤ 0` is modelled as `none`. -/
noncomputable def gk_volatility (bars : List PriceBar) : Option ℝ :=
  if gk_variance bars ≤ 0 then none else some (Real.sqrt (gk_variance bars))

/-- The last entry of a pandas `rolling(w).mean()` column
(`.iloc[-1]`): `NaN` (here `none`) when fewer than `w` rows exist,
otherwise the mean of the last `w` entries. -/
noncomputable def rolling_mean_last (w : ℕ) (xs : List ℝ) : Option ℝ :=
  if xs.length < w then none
  else some ((xs.drop (xs.length - w)).sum / w)

/-- Embedding of `query_and_manipulation.calculate_volatility_ratio`
applied to the OHLC frame: 30- and 90-day rolling Garman-Klass variances
at the last row, volatilities `sqrt (max variance 0)`, and the ratio
`vol_30d / vol_90d` defaulting to `1.0` when `vol_90d = 0`; `NaN`
(insufficient rows) is modelled as `none` and propagates exactly as the
Python float `NaN` does. -/
noncomputable def calculate_volatility_ratio (bars : List PriceBar) :
    Option ℝ × Option ℝ × Option ℝ :=
  let log_hl := bars.map fun b => Real.log (b.high / b.low)
  let log_co := bars.map fun b => Real.log (b.close / b.«open»)
  let hl_90d := rolling_mean_last 90 (log_hl.map fun x => x ^ 2)
  let co_90d := rolling_mean_last 90 (log_co.map fun x => x ^ 2)
  let hl_30d := rolling_mean_last 30 (log_hl.map fun x => x ^ 2)
  let co_30d := rolling_mean_last 30 (log_co.map fun x => x ^ 2)
  let variance_90d : Option ℝ := match hl_90d, co_90d with
    | some h, some c => some (0.5 * h - (2 * Real.log 2 - 1) * c)
    | _, _ => none
  let variance_30d : Option ℝ := match hl_30d, co_30d with
    | some h, some c => some (0.5 * h - (2 * Real.log 2 - 1) * c)
    | _, _ => none
  let vol_90d := variance_90d.map fun v => Real.sqrt (max v 0)
  let vol_30d := variance_30d.map fun v => Real.sqrt (max v 0)
  let ratio : Option ℝ := match vol_90d, vol_30d with
    | some v90, some v30 => if v90 = 0 then some 1 else some (v30 / v90)
    | some v90, none => if v90 = 0 then some 1 else none
    | none, _ => none
  (vol_30d, vol_90d, ratio)

/-- Claim C4: `gk_volatility` signals the explicit undefined value (`none`,
the embedding of `np.nan`) exactly when the whole-series raw variance is
`≤ 0`, and returns the non-negative square root of the variance whenever
the variance is positive. -/
theorem gk_volatility_undefined_spec (bars : List PriceBar) :
    (gk_variance bars ≤ 0 → gk_volatility bars = none)
    ∧ (0 < gk_variance bars →
        gk_volatility bars = some (Real.sqrt (gk_variance bars))
        ∧ ∀ v : ℝ, gk_volatility bars = some v → 0 ≤ v) := by
  constructor
  · intro h
    unfold gk_volatility
    rw [if_pos h]
  · intro h
    unfold gk_volatility
    rw [if_neg (not_le.mpr h)]
    refine ⟨rfl, ?_⟩
    intro v hv
    have : Real.sqrt (gk_variance bars) = v := by
      injection hv
    rw [← this]
    exact Real.sqrt_nonneg _

/-- Witness for `gk_volatility_undefined_spec`: a single constant bar has
zero variance and yields `none`; a bar with range `[1, 2]` has positive
variance and yields the square root. -/
theorem gk_volatility_undefined_spec_witness :
    gk_volatility [⟨100, 100, 100, 100⟩] = none
    ∧ gk_volatility [⟨1, 2, 1, 1⟩] =
        some (Real.sqrt (gk_variance [⟨1, 2, 1, 1⟩])) := by
  constructor
  · apply (gk_volatility_undefined_spec [⟨100, 100, 100, 100⟩]).1
    unfold gk_variance pymean
    norm_num [gk_term, Real.log_one]
  · apply ((gk_volatility_undefined_spec [⟨1, 2, 1, 1⟩]).2 ?_).1
    have hl2 : 0 < Real.log 2 := Real.log_pos (by norm_num)
    unfold gk_variance pymean
    norm_num [gk_term, Real.log_one]
    nlinarith [pow_pos hl2 2]

/-- The 90-bar constant series (`open = high = low = close = 100`). -/
def constBars90 : List PriceBar := List.replicate 90 ⟨100, 100, 100, 100⟩

lemma const_bars_gk_variance : gk_variance constBars90 = 0 := by
  unfold gk_variance constBars90 pymean
  rw [List.map_replicate]
  rw [show gk_term ⟨100, 100, 100, 100⟩ = 0 from by
    unfold gk_term
    norm_num [Real.log_one]]
  rw [List.sum_replicate, smul_zero, zero_div]

lemma rolling_mean_last_replicate_zero (w n : ℕ) (hw : w ≤ n) :
    rolling_mean_last w (List.replicate n (0 : ℝ)) = some 0 := by
  unfold rolling_mean_last
  rw [List.length_replicate, if_neg (by omega), List.drop_replicate,
    List.sum_replicate, smul_zero, zero_div]

/-- Claim C3 (counterexample): on the 90-bar constant series the whole-series
variance is `0`, so `gk_volatility` takes the `variance <= 0` branch and
returns the undefined sentinel (`np.nan`, modelled `none`) — not the value
`0` asserted by the claim. -/
theorem constant_series_gk_claim_counterexample :
    gk_volatility constBars90 ≠ some 0 ∧ gk_volatility constBars90 = none := by
  have hnone : gk_volatility constBars90 = none := by
    unfold gk_volatility
    rw [const_bars_gk_variance, if_pos le_rfl]
  refine ⟨?_, hnone⟩
  rw [hnone]
  exact fun h => nomatch h

/-- Claim C3 (amended): on the 90-bar constant series `gk_volatility`
signals undefined (`none`, since the raw variance is exactly `0`), while
`calculate_volatility_ratio` returns `(0.0, 0.0, 1.0)`: both rolling
variances are `0`, both volatilities are `0`, and the ratio takes the
`vol_90d = 0` default of `1.0`. -/
theorem constant_series_volatility_spec :
    gk_volatility constBars90 = none
    ∧ calculate_volatility_ratio constBars90 = (some 0, some 0, some 1) := by
  constructor
  · unfold gk_volatility
    rw [const_bars_gk_variance, if_pos le_rfl]
  · have h_hl : constBars90.map (fun b => Real.log (b.high / b.low)) =
        List.replicate 90 0 := by
      unfold constBars90
      rw [List.map_replicate]
      norm_num [Real.log_one]
    have h_co : constBars90.map (fun b => Real.log (b.close / b.«open»)) =
        List.replicate 90 0 := by
      unfold constBars90
      rw [List.map_replicate]
      norm_num [Real.log_one]
    have hsq : (List.replicate 90 (0 : ℝ)).map (fun x => x ^ 2) =
        List.replicate 90 0 := by
      rw [List.map_replicate]
      norm_num
    unfold calculate_volatility_ratio
    simp only [h_hl, h_co, hsq, rolling_mean_last_replicate_zero 90 90 le_rfl,
      rolling_mean_last_replicate_zero 30 90 (by omega)]
    norm_num [Real.sqrt_zero]

/-- One protocol snapshot row as consumed by `get_market_snapshots`. -/
structure Snapshot where
  total_collateral_usd : ℚ
  total_debt : ℚ

/-- The four columns returned by `get_latest_cr_ratio_row`; `NaN`/`inf`
cells (rolling windows that are not yet full, division of a nonzero value
by a zero debt) are modelled as `none`. -/
structure CrRow where
  cr_ratio : Option ℚ
  cr_ratio_7d : Option ℚ
  cr_ratio_30d : Option ℚ
  cr_7d_over_30d : Option ℚ

/-- Column `df[total_collateral_usd] / df[total_debt]`: pandas produces a
non-finite float on a zero denominator, modelled as `none`. -/
def cr_ratio_col (feed : List Snapshot) : List (Option ℚ) :=
  feed.map fun s =>
    if s.total_debt = 0 then none
    else some (s.total_collateral_usd / s.total_debt)

/-- A pandas `rolling(w).mean()` column over an `Option`-valued column:
entry `i` is defined when at least `w` rows exist up to `i` and the whole
window is defined. -/
def rolling_mean_col (w : ℕ) (xs : List (Option ℚ)) : List (Option ℚ) :=
  (List.range xs.length).map fun i =>
    if i + 1 < w then none
    else (((xs.take (i + 1)).drop (i + 1 - w)).mapM id).map fun l => l.sum / w

/-- Embedding of `query_and_manipulation.get_market_snapshots` applied to
the decoded snapshot feed.  On an empty feed `pd.DataFrame([])` has no
columns, so the unconditional column assignment
`df[cr_ratio] = df[total_collateral_usd] / df[total_debt]` raises a
`KeyError` (modelled as `Except.error`) before any row is produced;
otherwise every row carries the collateral ratio, its 7- and 30-day
rolling means, and their quotient. -/
def get_market_snapshots (feed : List Snapshot) : Except String (List CrRow) :=
  if feed.isEmpty then Except.error "KeyError: total_collateral_usd"
  else
    let cr := cr_ratio_col feed
    let cr7 := rolling_mean_col 7 cr
    let cr30 := rolling_mean_col 30 cr
    let quot := List.zipWith (fun a b =>
      match a, b with
      | some x, some y => if y = 0 then none else some (x / y)
      | _, _ => none) cr7 cr30
    Except.ok ((List.range feed.length).map fun i =>
      ⟨cr.getD i none, cr7.getD i none, cr30.getD i none, quot.getD i none⟩)

/-- Embedding of `query_and_manipulation.get_latest_cr_ratio_row`: any
exception from `get_market_snapshots` propagates; an empty frame would
return the zero-valued sentinel row; otherwise the last row is returned. -/
def get_latest_cr_ratio_row (feed : List Snapshot) : Except String CrRow :=
  match get_market_snapshots feed with
  | Except.error e => Except.error e
  | Except.ok df =>
    match df.getLast? with
    | none => Except.ok ⟨some 0, some 0, some 0, some 0⟩
    | some row => Except.ok row

/-- Claim C5 (code evaluated at the failing input): on an empty snapshot
feed the pipeline raises `KeyError` inside `get_market_snapshots` — the
column arithmetic runs on a column-less empty frame before the
`df.empty` check in `get_latest_cr_ratio_row` — so the accessor propagates
the error instead of returning the zero-valued sentinel row. -/
theorem latest_cr_row_empty_feed_bug :
    get_latest_cr_ratio_row [] = Except.error "KeyError: total_collateral_usd"
    ∧ get_latest_cr_ratio_row [] ≠
        Except.ok ⟨some 0, some 0, some 0, some 0⟩ := by
  constructor
  · rfl
  · exact fun h => nomatch h
